import Mathlib

/-!
Shallow embedding of the Base wallet-tracker monitoring engine
(`src/walletTracker.ts`) and verification of its specification.

Times and block numbers are modelled as `Int` (JS numbers within the safe
integer range); transaction fields that arrive as strings but are converted
via `Number(...)` in the source are carried already converted.
-/

namespace WalletTracker

/-- Mirrors the `Transaction` interface: hash, sender, recipient, value,
block number, timestamp, raw input. `blockNumber` and `timeStamp` are kept
as integers (the source applies `Number(...)` before using them). -/
structure Transaction where
  hash : String
  fromAddress : String
  toAddress : String
  value : String
  blockNumber : Int
  timeStamp : Int
  input : String
deriving DecidableEq

/-- Per-wallet monitoring state, mirroring the `WalletState` interface. -/
structure WalletState where
  isSpamming : Bool
  lastTxBlock : Int
  lastNotifiedTxHash : String
  lastStateChangeTime : Int
deriving DecidableEq

/-- The lazily created initial state for a wallet
(`{ isSpamming: false, lastTxBlock: 0, lastNotifiedTxHash: '', lastStateChangeTime: 0 }`). -/
def initialWalletState : WalletState :=
  { isSpamming := false, lastTxBlock := 0, lastNotifiedTxHash := "", lastStateChangeTime := 0 }

/-- The two transition kinds returned by the classifier (`'start' | 'stop'`). -/
inductive TransitionType where
  | start : TransitionType
  | stop : TransitionType
deriving DecidableEq

/-- Return value of `isSpamActivity`: `{ shouldNotify, type }`. -/
structure SpamResult where
  shouldNotify : Bool
  type : Option TransitionType
deriving DecidableEq

/-- The no-decision result `{ shouldNotify: false, type: null }`. -/
def noChange : SpamResult := { shouldNotify := false, type := none }

/-- The mapped view of a transaction used inside `isSpamActivity`
(`{ block: Number(tx.blockNumber), timestamp: Number(tx.timeStamp), hash: tx.hash }`). -/
structure TxSummary where
  block : Int
  timestamp : Int
  hash : String
deriving DecidableEq

/-- Map a `Transaction` to its summary, as the classifier does. -/
def txSummary (tx : Transaction) : TxSummary :=
  { block := tx.blockNumber, timestamp := tx.timeStamp, hash := tx.hash }

/-- Stable insertion into a list sorted by descending block number; the
element goes before the first entry whose block is not larger, matching the
stable in-place `sort((a, b) => b.block - a.block)` of the source. -/
def insertByBlockDesc (t : TxSummary) : List TxSummary → List TxSummary
  | [] => [t]
  | u :: us => if t.block < u.block then u :: insertByBlockDesc t us else t :: u :: us

/-- Stable sort by descending block number. -/
def sortByBlockDesc (l : List TxSummary) : List TxSummary :=
  l.foldr insertByBlockDesc []

/-- `transactions.slice(0, 3).map(...).sort((a, b) => b.block - a.block)`. -/
def recentTxs (transactions : List Transaction) : List TxSummary :=
  sortByBlockDesc ((transactions.take 3).map txSummary)

/-- The burst classifier `isSpamActivity`, written as a pure function from
the call inputs and the wallet's current state to the returned
`SpamResult` and the updated state. `now` is `Math.floor(Date.now() / 1000)`
at the time of the call. -/
def isSpamActivity (transactions : List Transaction) (state : WalletState)
    (now currentBlock : Int) : SpamResult × WalletState :=
  match recentTxs transactions with
  | [] => (noChange, state)
  | t0 :: rest =>
    if t0.hash = state.lastNotifiedTxHash then
      (noChange, state)
    else if now - state.lastStateChangeTime < 30 then
      (noChange, state)
    else
      let blocksSinceLastTx := currentBlock - t0.block
      if state.isSpamming then
        if 20 < blocksSinceLastTx then
          ({ shouldNotify := true, type := some TransitionType.stop },
           { isSpamming := false, lastTxBlock := t0.block,
             lastNotifiedTxHash := t0.hash, lastStateChangeTime := now })
        else
          (noChange, state)
      else
        match rest with
        | t1 :: t2 :: _ =>
          if t0.block - t1.block ≤ 3 ∧ t1.block - t2.block ≤ 3 ∧ blocksSinceLastTx ≤ 3 then
            ({ shouldNotify := true, type := some TransitionType.start },
             { isSpamming := true, lastTxBlock := t0.block,
               lastNotifiedTxHash := t0.hash, lastStateChangeTime := now })
          else
            (noChange, { state with lastTxBlock := t0.block })
        | _ =>
          (noChange, { state with lastTxBlock := t0.block })

/-- One classification call's inputs: the fetched transaction window, the
wall-clock second of the call, and the shared chain-height snapshot. -/
structure CallInput where
  transactions : List Transaction
  now : Int
  currentBlock : Int

/-- One classification step on a wallet's state. -/
def stepCall (s : WalletState) (c : CallInput) : SpamResult × WalletState :=
  isSpamActivity c.transactions s c.now c.currentBlock

/-- A notification forwarded to the sink: the transition type and the hash
of the transaction the classifier keyed the alert on (the hash it records
in `lastNotifiedTxHash` when the transition fires). -/
structure Notified where
  type : TransitionType
  hash : String
deriving DecidableEq

/-- The sequence of notifications emitted while folding a list of
classification calls through the state machine; a call contributes a
notification exactly when `shouldNotify && type` holds, as in
`monitorWalletBatch`. -/
def emitsFrom (s : WalletState) : List CallInput → List Notified
  | [] => []
  | c :: cs =>
    match (stepCall s c).1.shouldNotify, (stepCall s c).1.type with
    | true, some t =>
      { type := t, hash := (stepCall s c).2.lastNotifiedTxHash } :: emitsFrom (stepCall s c).2 cs
    | _, _ => emitsFrom (stepCall s c).2 cs

/-- The successive wallet states along a run of classification calls,
beginning with the state before the first call. -/
def trajectory (s : WalletState) : List CallInput → List WalletState
  | [] => [s]
  | c :: cs => s :: trajectory (stepCall s c).2 cs

/-! ### Resilient fetcher (`fetchTransactions`, `getCurrentBlockNumber`) -/

/-- `API_SETTINGS.MAX_RETRIES`. -/
def API_SETTINGS_MAX_RETRIES : Nat := 3

/-- `API_SETTINGS.RETRY_DELAY` in milliseconds. -/
def API_SETTINGS_RETRY_DELAY : Nat := 1000

/-- Outcome of one underlying attempt inside `fetchTransactions`: the axios
call throws (`err`), succeeds with `status === '1'` and a result array
(`ok (some result)`), or succeeds without usable data (`ok none`). -/
inductive FetchOutcome where
  | err : FetchOutcome
  | ok : Option (List Transaction) → FetchOutcome

/-- The recipient filter applied to a successful response:
`result.filter(tx => tx.to.toLowerCase() === address.toLowerCase())`. -/
def filterToAddress (result : List Transaction) (address : String) : List Transaction :=
  result.filter (fun tx => tx.toAddress.toLower == address.toLower)

/-- Body of `fetchTransactions`, with the self-recursion on
`retryCount + 1` expressed structurally through a fuel argument; the second
component accumulates the total milliseconds spent in
`delay(RETRY_DELAY * (retryCount + 1))` calls. With `fuel =
MAX_RETRIES - retryCount` the zero-fuel case coincides with the exhausted
`retryCount < MAX_RETRIES` guard, so the embedding is exact. -/
def fetchTransactionsGo (upstream : Nat → FetchOutcome) (address : String) :
    Nat → Nat → List Transaction × Nat
  | retryCount, fuel =>
    match upstream retryCount with
    | FetchOutcome.ok (some result) => (filterToAddress result address, 0)
    | FetchOutcome.ok none => ([], 0)
    | FetchOutcome.err =>
      match fuel with
      | 0 => ([], 0)
      | fuel' + 1 =>
        if retryCount < API_SETTINGS_MAX_RETRIES then
          let next := fetchTransactionsGo upstream address (retryCount + 1) fuel'
          (next.1, API_SETTINGS_RETRY_DELAY * (retryCount + 1) + next.2)
        else ([], 0)

/-- `fetchTransactions(address)`: attempt 0 with `MAX_RETRIES` retries left.
`upstream k` is the outcome of the `k`-th underlying attempt. Returns the
transaction list handed to the caller and the cumulative retry delay. -/
def fetchTransactions (upstream : Nat → FetchOutcome) (address : String) :
    List Transaction × Nat :=
  fetchTransactionsGo upstream address 0 API_SETTINGS_MAX_RETRIES

/-- The exhausted-retries fallback of `getCurrentBlockNumber`:
`Math.max(...values(walletStates).map(s => s.lastTxBlock).filter(b => b > 0))`
compared against `0` (`Math.max` of an empty array is `-Infinity`, modelled
by the `none` branch), else the hard floor `24000000`. -/
def fallbackBlockNumber (states : List WalletState) : Int :=
  let blocks := ((states.map fun s => s.lastTxBlock).filter fun b => 0 < b)
  match blocks.max? with
  | some lastKnownBlock => if 0 < lastKnownBlock then lastKnownBlock else 24000000
  | none => 24000000

/-- Body of `getCurrentBlockNumber` with the same fuel discipline as
`fetchTransactionsGo`; `upstream k = some h` means the `k`-th attempt parsed
a block height `h`, `none` means it threw or returned an invalid response. -/
def getCurrentBlockNumberGo (upstream : Nat → Option Int) (states : List WalletState) :
    Nat → Nat → Int × Nat
  | retryCount, fuel =>
    match upstream retryCount with
    | some height => (height, 0)
    | none =>
      match fuel with
      | 0 => (fallbackBlockNumber states, 0)
      | fuel' + 1 =>
        if retryCount < API_SETTINGS_MAX_RETRIES then
          let next := getCurrentBlockNumberGo upstream states (retryCount + 1) fuel'
          (next.1, API_SETTINGS_RETRY_DELAY * (retryCount + 1) + next.2)
        else (fallbackBlockNumber states, 0)

/-- `getCurrentBlockNumber()` from attempt 0, over the current collection of
wallet states (used only by the fallback). -/
def getCurrentBlockNumber (upstream : Nat → Option Int) (states : List WalletState) :
    Int × Nat :=
  getCurrentBlockNumberGo upstream states 0 API_SETTINGS_MAX_RETRIES

/-! ### Key-rotated rate limiter (`getNextApiKey`, `rateLimitedDelay`) -/

/-- `API_SETTINGS.RATE_LIMIT_DELAY` in milliseconds. -/
def RATE_LIMIT_DELAY : Int := 50

/-- The rate limiter's mutable state: the credential pool `API_KEYS`, the
rotation cursor `currentApiKeyIndex`, the per-credential last-use stamps
`lastApiCalls`, and the wall clock `now` (advanced by `delay`). -/
structure RateLimiterState where
  apiKeys : List String
  currentApiKeyIndex : Nat
  lastApiCalls : List Int
  now : Int

/-- `rateLimitedDelay()`: reads the stamp of the credential the next
`getNextApiKey()` will return, sleeps just long enough to restore the
minimum spacing, and stamps that credential with the post-sleep clock. -/
def rateLimitedDelay (s : RateLimiterState) : RateLimiterState :=
  let keyIndex := s.currentApiKeyIndex
  let timeSinceLastCall := s.now - s.lastApiCalls.getD keyIndex 0
  let now' :=
    if timeSinceLastCall < RATE_LIMIT_DELAY then
      s.now + (RATE_LIMIT_DELAY - timeSinceLastCall)
    else s.now
  { s with now := now', lastApiCalls := s.lastApiCalls.set keyIndex now' }

/-- `getNextApiKey()`: returns `API_KEYS[currentApiKeyIndex]` and advances
the cursor modulo the pool size. -/
def getNextApiKey (s : RateLimiterState) : String × RateLimiterState :=
  (s.apiKeys.getD s.currentApiKeyIndex "",
   { s with currentApiKeyIndex := (s.currentApiKeyIndex + 1) % s.apiKeys.length })

/-- One acquisition as performed by the fetchers: `elapsed` milliseconds of
unrelated time pass, then `await rateLimitedDelay()`, then the credential is
taken with `getNextApiKey()`. -/
def acquire (elapsed : Nat) (s : RateLimiterState) : String × RateLimiterState :=
  getNextApiKey (rateLimitedDelay { s with now := s.now + elapsed })

/-- The credentials handed out by a sequence of acquisitions. -/
def acquireRun (s : RateLimiterState) : List Nat → List String
  | [] => []
  | e :: es =>
    match acquire e s with
    | (key, s') => key :: acquireRun s' es

/-- A sample transaction with the given hash and block number. -/
def mkTx (h : String) (b : Int) : Transaction :=
  { hash := h, fromAddress := "0xf", toAddress := "0xa", value := "0",
    blockNumber := b, timeStamp := 0, input := "" }

/-- A wallet in the `Bursting` classification, 5 blocks behind, eligible
for a fresh decision (no recent state change, no recorded hash). -/
def burstingState : WalletState :=
  { isSpamming := true, lastTxBlock := 5, lastNotifiedTxHash := "", lastStateChangeTime := 0 }

/-- Three classification calls for one address: a burst at blocks
100–102 observed at height 103 (fires `start` on hash `"a"`), a quiet
period observed at height 125 (fires `stop` on hash `"d"`), and the
original burst window re-fed at height 103 (fires `start` on hash `"a"`
again). -/
def replayTrace : List CallInput :=
  [ { transactions := [mkTx "a" 102, mkTx "b" 101, mkTx "c" 100], now := 100, currentBlock := 103 },
    { transactions := [mkTx "d" 102], now := 200, currentBlock := 125 },
    { transactions := [mkTx "a" 102, mkTx "b" 101, mkTx "c" 100], now := 300, currentBlock := 103 } ]

/-- Case characterization of one classification step: either no alert fires
and the step leaves `isSpamming`, `lastNotifiedTxHash` and
`lastStateChangeTime` untouched, or an alert fires whose kind is determined
by the current `isSpamming` flag, flipping that flag, replacing
`lastNotifiedTxHash` with a different hash, and moving
`lastStateChangeTime` forward by at least the 30-second hysteresis. -/
theorem stepCall_cases (s : WalletState) (c : CallInput) :
    ((stepCall s c).1 = noChange ∧
      (stepCall s c).2.isSpamming = s.isSpamming ∧
      (stepCall s c).2.lastNotifiedTxHash = s.lastNotifiedTxHash ∧
      (stepCall s c).2.lastStateChangeTime = s.lastStateChangeTime) ∨
    ((stepCall s c).1 =
        { shouldNotify := true,
          type := some (if s.isSpamming then TransitionType.stop else TransitionType.start) } ∧
      (stepCall s c).2.isSpamming = !s.isSpamming ∧
      (stepCall s c).2.lastNotifiedTxHash ≠ s.lastNotifiedTxHash ∧
      s.lastStateChangeTime + 30 ≤ (stepCall s c).2.lastStateChangeTime) := by
  unfold stepCall isSpamActivity
  split
  · exact Or.inl ⟨rfl, rfl, rfl, rfl⟩
  · rename_i t0 rest
    split
    · exact Or.inl ⟨rfl, rfl, rfl, rfl⟩
    · rename_i hhash
      split
      · exact Or.inl ⟨rfl, rfl, rfl, rfl⟩
      · rename_i htime
        split
        · rename_i hspam
          dsimp only
          split
          · refine Or.inr ⟨by simp [hspam], by simp [hspam], ?_, by simp; omega⟩
            simpa using hhash
          · exact Or.inl ⟨rfl, rfl, rfl, rfl⟩
        · rename_i hspam
          split
          · dsimp only
            split
            · refine Or.inr ⟨?_, ?_, ?_, ?_⟩
              · simp [Bool.not_eq_true] at hspam
                simp [hspam]
              · simp [Bool.not_eq_true] at hspam
                simp [hspam]
              · simpa using hhash
              · simp
                omega
            · exact Or.inl ⟨rfl, rfl, rfl, rfl⟩
          · exact Or.inl ⟨rfl, rfl, rfl, rfl⟩

/-- Unfolding `emitsFrom` on a call that fires an alert. -/
theorem emitsFrom_cons_notify (s : WalletState) (c : CallInput) (cs : List CallInput)
    (t : TransitionType) (h1 : (stepCall s c).1.shouldNotify = true)
    (h2 : (stepCall s c).1.type = some t) :
    emitsFrom s (c :: cs) =
      { type := t, hash := (stepCall s c).2.lastNotifiedTxHash } :: emitsFrom (stepCall s c).2 cs := by
  rw [emitsFrom]
  split
  · rename_i t' heq1 heq2
    rw [h2] at heq2
    cases heq2
    rfl
  · rename_i hne
    exact (hne t h1 h2).elim

/-- Unfolding `emitsFrom` on a call that fires no alert. -/
theorem emitsFrom_cons_quiet (s : WalletState) (c : CallInput) (cs : List CallInput)
    (h1 : (stepCall s c).1.shouldNotify = false) :
    emitsFrom s (c :: cs) = emitsFrom (stepCall s c).2 cs := by
  rw [emitsFrom]
  split
  · rename_i t' heq1 heq2
    rw [h1] at heq1
    cases heq1
  · rfl

/-- Run invariant for the emitted notifications: consecutive notifications
differ in both transition type and hash, and the first notification's type
is dictated by the starting `isSpamming` flag while its hash differs from
the starting `lastNotifiedTxHash`. -/
theorem emitsFrom_chain_invariant (cs : List CallInput) : ∀ s : WalletState,
    List.Chain' (fun a b : Notified => a.type ≠ b.type ∧ a.hash ≠ b.hash) (emitsFrom s cs) ∧
    ∀ n : Notified, (emitsFrom s cs).head? = some n →
      n.type = (if s.isSpamming then TransitionType.stop else TransitionType.start) ∧
      n.hash ≠ s.lastNotifiedTxHash := by
  induction cs with
  | nil => intro s; exact ⟨List.chain'_nil, by simp [emitsFrom]⟩
  | cons c cs ih =>
    intro s
    rcases stepCall_cases s c with ⟨hres, hspam, hhash, _⟩ | ⟨hres, hspam, hhash, _⟩
    · have h1 : (stepCall s c).1.shouldNotify = false := by rw [hres]; rfl
      rw [emitsFrom_cons_quiet s c cs h1]
      refine ⟨(ih (stepCall s c).2).1, fun n hn => ?_⟩
      have := (ih (stepCall s c).2).2 n hn
      rw [hspam, hhash] at this
      exact this
    · have h1 : (stepCall s c).1.shouldNotify = true := by rw [hres]
      have h2 : (stepCall s c).1.type =
          some (if s.isSpamming then TransitionType.stop else TransitionType.start) := by
        rw [hres]
      rw [emitsFrom_cons_notify s c cs _ h1 h2]
      constructor
      · rw [List.chain'_cons']
        refine ⟨fun y hy => ?_, (ih (stepCall s c).2).1⟩
        have hy' := (ih (stepCall s c).2).2 y (by simpa using hy)
        refine ⟨?_, Ne.symm hy'.2⟩
        show (if s.isSpamming then TransitionType.stop else TransitionType.start) ≠ y.type
        rw [hy'.1, hspam]
        cases hs : s.isSpamming <;> simp
      · intro n hn
        simp only [List.head?_cons, Option.some.injEq] at hn
        subst hn
        exact ⟨rfl, hhash⟩

/-- One classification step never decreases `lastStateChangeTime`. -/
theorem stepCall_lastStateChangeTime_mono (s : WalletState) (c : CallInput) :
    s.lastStateChangeTime ≤ (stepCall s c).2.lastStateChangeTime := by
  rcases stepCall_cases s c with ⟨_, _, _, h⟩ | ⟨_, _, _, h⟩
  · exact le_of_eq h.symm
  · omega

/-- C4: for every address and every sequence of classification calls, the
emitted notifications strictly alternate between `start` (`BurstStarted`)
and `stop` (`BurstStopped`): no two consecutive notifications share a
transition type, from any starting wallet state. -/
theorem emitted_transitions_alternate (s : WalletState) (cs : List CallInput) :
    List.Chain' (fun a b : Notified => a.type ≠ b.type) (emitsFrom s cs) :=
  List.Chain'.imp (fun _ _ h => h.1) (emitsFrom_chain_invariant cs s).1

/-- C6: along every run of classification calls, the successive values of
`lastStateChangeTime` are monotonically non-decreasing. -/
theorem lastStateChangeTime_monotone (s : WalletState) (cs : List CallInput) :
    List.Chain' (fun a b : WalletState => a.lastStateChangeTime ≤ b.lastStateChangeTime)
      (trajectory s cs) := by
  induction cs generalizing s with
  | nil => simp [trajectory]
  | cons c cs ih =>
    rw [trajectory, List.chain'_cons']
    refine ⟨fun y hy => ?_, ih (stepCall s c).2⟩
    have hhead : (trajectory (stepCall s c).2 cs).head? = some (stepCall s c).2 := by
      cases cs <;> rfl
    rw [hhead, Option.mem_def, Option.some.injEq] at hy
    rw [← hy]
    exact stepCall_lastStateChangeTime_mono s c

/-- C10: the classifier returns `shouldNotify = true` exactly when it
returns a non-null transition type; the flag and the type are never
inconsistent. -/
theorem shouldNotify_iff_type_present (transactions : List Transaction) (s : WalletState)
    (now currentBlock : Int) :
    (isSpamActivity transactions s now currentBlock).1.shouldNotify = true ↔
      (isSpamActivity transactions s now currentBlock).1.type ≠ none := by
  have hs : isSpamActivity transactions s now currentBlock =
      stepCall s ⟨transactions, now, currentBlock⟩ := rfl
  rw [hs]
  rcases stepCall_cases s ⟨transactions, now, currentBlock⟩ with ⟨hres, _, _, _⟩ | ⟨hres, _, _, _⟩
  · rw [hres]
    simp [noChange]
  · rw [hres]
    simp

/-- C5: when fewer than 30 seconds have passed since the last state change,
the classifier makes no decision and leaves the state untouched, whatever
the transactions and chain height are. -/
theorem hysteresis_no_decision (transactions : List Transaction) (s : WalletState)
    (now currentBlock : Int) (h : now - s.lastStateChangeTime < 30) :
    isSpamActivity transactions s now currentBlock = (noChange, s) := by
  unfold isSpamActivity
  split
  · rfl
  · split <;> simp [h]

/-- Witness for C5: an already-bursting wallet whose state changed 10
seconds ago produces `NoChange` even though the stop condition
(`blocksSinceLastTx > 20`) is met. -/
theorem hysteresis_no_decision_witness :
    (100 : Int) - (90 : Int) < 30 ∧
    isSpamActivity [mkTx "x" 102]
      { isSpamming := true, lastTxBlock := 102, lastNotifiedTxHash := "", lastStateChangeTime := 90 }
      100 200 =
      (noChange,
        { isSpamming := true, lastTxBlock := 102, lastNotifiedTxHash := "",
          lastStateChangeTime := 90 }) :=
  ⟨by decide,
    hysteresis_no_decision [mkTx "x" 102]
      { isSpamming := true, lastTxBlock := 102, lastNotifiedTxHash := "", lastStateChangeTime := 90 }
      100 200 (by decide)⟩

/-- C3 counterexample: over `replayTrace`, the notification
(`start`, hash `"a"`) is emitted twice for the same address. The classifier
remembers only the single most recent notified hash, so after an
intervening `stop` on a different hash, the original hash fires a second
identical `(address, transactionHash, transitionType)` notification. -/
theorem notified_twice_counterexample :
    (emitsFrom initialWalletState replayTrace).count
      { type := TransitionType.start, hash := "a" } = 2 := by decide

/-- C3 (amended): consecutive notifications for an address never share the
same triggering transaction hash, and re-feeding a window whose top
transaction hash equals the recorded `lastNotifiedTxHash` (in particular,
the identical window immediately after a transition) yields `NoChange` with
the state untouched. The at-most-once guarantee is only relative to the
immediately preceding notification, not the whole sequence. -/
theorem notified_consecutive_distinct :
    (∀ (s : WalletState) (cs : List CallInput),
      List.Chain' (fun a b : Notified => a.hash ≠ b.hash) (emitsFrom s cs)) ∧
    (∀ (s : WalletState) (c : CallInput) (t0 : TxSummary) (rest : List TxSummary),
      recentTxs c.transactions = t0 :: rest → t0.hash = s.lastNotifiedTxHash →
      stepCall s c = (noChange, s)) := by
  constructor
  · intro s cs
    exact List.Chain'.imp (fun _ _ h => h.2) (emitsFrom_chain_invariant cs s).1
  · intro s c t0 rest hr hh
    show isSpamActivity c.transactions s c.now c.currentBlock = (noChange, s)
    unfold isSpamActivity
    rw [hr]
    dsimp only
    rw [if_pos hh]

/-- Witness for C3 (amended): after the burst at blocks 100–102 has been
notified (hash `"a"` recorded), re-feeding the identical window produces
`NoChange` and leaves the state alone. -/
theorem notified_consecutive_distinct_witness :
    recentTxs [mkTx "a" 102, mkTx "b" 101, mkTx "c" 100] =
      ({ block := 102, timestamp := 0, hash := "a" } : TxSummary) ::
        [({ block := 101, timestamp := 0, hash := "b" } : TxSummary),
         ({ block := 100, timestamp := 0, hash := "c" } : TxSummary)] ∧
    stepCall
      { isSpamming := true, lastTxBlock := 102, lastNotifiedTxHash := "a", lastStateChangeTime := 100 }
      { transactions := [mkTx "a" 102, mkTx "b" 101, mkTx "c" 100], now := 200, currentBlock := 103 } =
      (noChange,
        { isSpamming := true, lastTxBlock := 102, lastNotifiedTxHash := "a",
          lastStateChangeTime := 100 }) :=
  ⟨by decide,
    notified_consecutive_distinct.2
      { isSpamming := true, lastTxBlock := 102, lastNotifiedTxHash := "a", lastStateChangeTime := 100 }
      { transactions := [mkTx "a" 102, mkTx "b" 101, mkTx "c" 100], now := 200, currentBlock := 103 }
      { block := 102, timestamp := 0, hash := "a" }
      [({ block := 101, timestamp := 0, hash := "b" } : TxSummary),
       ({ block := 100, timestamp := 0, hash := "c" } : TxSummary)]
      (by decide) (by decide)⟩

/-- C2 counterexample: a `Bursting` wallet passing every entry guard, whose
stop condition does not hold (`blocksSinceLastTx = 10 ≤ 20`), is returned
entirely unchanged: `lastTxBlock` stays 5 and is not updated to the top
transaction's block 15, because the `Bursting` no-stop path returns before
the `lastTxBlock` update. -/
theorem bursting_no_update_counterexample :
    (stepCall burstingState
        { transactions := [mkTx "x" 15], now := 100, currentBlock := 25 }).1 = noChange ∧
    (stepCall burstingState
        { transactions := [mkTx "x" 15], now := 100, currentBlock := 25 }).2 = burstingState ∧
    burstingState.lastTxBlock = 5 ∧
    (stepCall burstingState
        { transactions := [mkTx "x" 15], now := 100, currentBlock := 25 }).2.lastTxBlock ≠ 15 := by
  decide

/-- C2 (amended): when the entry guards pass and no transition fires, an
`Idle` wallet has `lastTxBlock` set to the top transaction's block with
nothing else changed; a `Bursting` wallet whose stop condition does not
hold is left entirely unchanged (its `lastTxBlock` is not updated). -/
theorem no_transition_update (transactions : List Transaction) (s : WalletState)
    (now currentBlock : Int) (t0 : TxSummary) (rest : List TxSummary)
    (hr : recentTxs transactions = t0 :: rest)
    (hhash : t0.hash ≠ s.lastNotifiedTxHash)
    (htime : 30 ≤ now - s.lastStateChangeTime)
    (hq : (isSpamActivity transactions s now currentBlock).1.shouldNotify = false) :
    (isSpamActivity transactions s now currentBlock).1 = noChange ∧
    (isSpamActivity transactions s now currentBlock).2 =
      (if s.isSpamming then s else { s with lastTxBlock := t0.block }) := by
  have h30 : ¬ (now - s.lastStateChangeTime < 30) := by omega
  unfold isSpamActivity at hq ⊢
  rw [hr] at hq ⊢
  dsimp only at hq ⊢
  simp only [if_neg hhash, if_neg h30] at hq ⊢
  cases hspam : s.isSpamming with
  | true =>
    simp only [hspam, eq_self_iff_true, if_true] at hq ⊢
    split at hq
    · simp at hq
    · rename_i hstop
      simp only [if_neg hstop]
      exact ⟨trivial, trivial⟩
  | false =>
    simp only [hspam, Bool.false_eq_true, if_false] at hq ⊢
    rcases rest with _ | ⟨t1, _ | ⟨t2, tl⟩⟩
    · exact ⟨rfl, rfl⟩
    · exact ⟨rfl, rfl⟩
    · dsimp only at hq ⊢
      split at hq
      · simp at hq
      · rename_i hcond
        simp only [if_neg hcond]
        exact ⟨trivial, trivial⟩

/-- Witness for C2 (amended): an `Idle` wallet seeing a single fresh
transaction at block 10 fires nothing and only tracks the new block. -/
theorem no_transition_update_witness :
    recentTxs [mkTx "x" 10] = [({ block := 10, timestamp := 0, hash := "x" } : TxSummary)] ∧
    (isSpamActivity [mkTx "x" 10] initialWalletState 100 100).1 = noChange ∧
    (isSpamActivity [mkTx "x" 10] initialWalletState 100 100).2 =
      (if initialWalletState.isSpamming then initialWalletState
       else { initialWalletState with lastTxBlock := 10 }) :=
  ⟨by decide,
    no_transition_update [mkTx "x" 10] initialWalletState 100 100
      { block := 10, timestamp := 0, hash := "x" } [] (by decide) (by decide) (by decide)
      (by decide)⟩

/-- C1: under the entry guards (`Idle`, a transaction available, fresh top
hash, 30 seconds past the last state change), the `start` transition fires
exactly when three transactions are available with both consecutive block
gaps at most 3 and the chain at most 3 blocks past the top transaction;
when it fires, the state becomes
`{ isSpamming := true, lastTxBlock := top.block, lastNotifiedTxHash := top.hash,
lastStateChangeTime := now }`, and the `start` notification is emitted. -/
theorem idle_to_bursting_iff (transactions : List Transaction) (s : WalletState)
    (now currentBlock : Int) (t0 : TxSummary) (rest : List TxSummary)
    (hr : recentTxs transactions = t0 :: rest)
    (hidle : s.isSpamming = false)
    (hhash : t0.hash ≠ s.lastNotifiedTxHash)
    (htime : 30 ≤ now - s.lastStateChangeTime) :
    ((isSpamActivity transactions s now currentBlock).1 =
        { shouldNotify := true, type := some TransitionType.start } ↔
      ∃ t1 t2 tl, rest = t1 :: t2 :: tl ∧
        t0.block - t1.block ≤ 3 ∧ t1.block - t2.block ≤ 3 ∧ currentBlock - t0.block ≤ 3) ∧
    ((isSpamActivity transactions s now currentBlock).1.shouldNotify = true →
      (isSpamActivity transactions s now currentBlock).2 =
        { isSpamming := true, lastTxBlock := t0.block,
          lastNotifiedTxHash := t0.hash, lastStateChangeTime := now }) := by
  have h30 : ¬ (now - s.lastStateChangeTime < 30) := by omega
  unfold isSpamActivity
  rw [hr]
  dsimp only
  simp only [if_neg hhash, if_neg h30, hidle, Bool.false_eq_true, if_false]
  rcases rest with _ | ⟨t1, _ | ⟨t2, tl⟩⟩
  · constructor
    · constructor
      · intro habs
        exact absurd habs (by simp [noChange])
      · rintro ⟨t1', t2', tl', heq, -⟩
        cases heq
    · intro habs
      exact absurd habs (by simp [noChange])
  · constructor
    · constructor
      · intro habs
        exact absurd habs (by simp [noChange])
      · rintro ⟨t1', t2', tl', heq, -⟩
        cases heq
    · intro habs
      exact absurd habs (by simp [noChange])
  · dsimp only
    split
    · rename_i hcond
      constructor
      · exact iff_of_true rfl ⟨t1, t2, tl, rfl, hcond.1, hcond.2.1, hcond.2.2⟩
      · intro _
        rfl
    · rename_i hcond
      constructor
      · constructor
        · intro habs
          exact absurd habs (by simp [noChange])
        · rintro ⟨t1', t2', tl', heq, hc1, hc2, hc3⟩
          injection heq with e1 heq'
          injection heq' with e2 _
          subst e1
          subst e2
          exact absurd ⟨hc1, hc2, hc3⟩ hcond
      · intro habs
        exact absurd habs (by simp [noChange])

/-- Witness for C1: the spec's example — three transactions at blocks
100, 101, 102 observed at chain height 103 for an `Idle` wallet with no
prior state change — fires `BurstStarted` and records the burst. -/
theorem idle_to_bursting_iff_witness :
    (isSpamActivity [mkTx "a" 102, mkTx "b" 101, mkTx "c" 100]
        initialWalletState 1000 103).1 =
      { shouldNotify := true, type := some TransitionType.start } ∧
    (isSpamActivity [mkTx "a" 102, mkTx "b" 101, mkTx "c" 100]
        initialWalletState 1000 103).2 =
      { isSpamming := true, lastTxBlock := 102,
        lastNotifiedTxHash := "a", lastStateChangeTime := 1000 } := by
  have h := idle_to_bursting_iff [mkTx "a" 102, mkTx "b" 101, mkTx "c" 100]
    initialWalletState 1000 103
    { block := 102, timestamp := 0, hash := "a" }
    [({ block := 101, timestamp := 0, hash := "b" } : TxSummary),
     ({ block := 100, timestamp := 0, hash := "c" } : TxSummary)]
    (by decide) (by decide) (by decide) (by decide)
  have hfire := h.1.mpr
    ⟨{ block := 101, timestamp := 0, hash := "b" },
     { block := 100, timestamp := 0, hash := "c" }, [], rfl,
     by decide, by decide, by decide⟩
  exact ⟨hfire, h.2 (by rw [hfire])⟩

/-- C7: `fetchTransactions` retries a throwing upstream up to
`MAX_RETRIES = 3` times, sleeping `RETRY_DELAY * (attempt + 1)` between
attempts. If every attempt throws it returns the empty list (after
cumulative delay `1·RETRY_DELAY + 2·RETRY_DELAY + 3·RETRY_DELAY`) instead
of raising; if the upstream throws twice and then succeeds, the filtered
successful result is returned after a cumulative delay of exactly
`RETRY_DELAY + 2·RETRY_DELAY`. Totality of the embedding reflects that the
function never raises past this boundary. -/
theorem fetchTransactions_retry_policy (upstream : Nat → FetchOutcome) (address : String)
    (r : List Transaction) :
    ((∀ k, upstream k = FetchOutcome.err) →
      fetchTransactions upstream address =
        ([], API_SETTINGS_RETRY_DELAY + 2 * API_SETTINGS_RETRY_DELAY +
          3 * API_SETTINGS_RETRY_DELAY)) ∧
    (upstream 0 = FetchOutcome.err → upstream 1 = FetchOutcome.err →
      upstream 2 = FetchOutcome.ok (some r) →
      fetchTransactions upstream address =
        (filterToAddress r address,
          API_SETTINGS_RETRY_DELAY + 2 * API_SETTINGS_RETRY_DELAY)) := by
  constructor
  · intro hfail
    simp [fetchTransactions, fetchTransactionsGo, hfail, API_SETTINGS_MAX_RETRIES,
      API_SETTINGS_RETRY_DELAY]
  · intro h0 h1 h2
    simp [fetchTransactions, fetchTransactionsGo, h0, h1, h2, API_SETTINGS_MAX_RETRIES,
      API_SETTINGS_RETRY_DELAY]

/-- Witness for C7: with an upstream that always throws, the fetcher
returns `[]` after 6000 ms of delays; with an upstream that throws twice
and then delivers one transaction addressed to the tracked wallet, the
fetcher returns it after 3000 ms of delays. -/
theorem fetchTransactions_retry_policy_witness :
    fetchTransactions (fun _ => FetchOutcome.err) "0xa" = ([], 6000) ∧
    (fetchTransactions
        (fun k => if k < 2 then FetchOutcome.err else FetchOutcome.ok (some [mkTx "x" 10]))
        "0xa").1 = filterToAddress [mkTx "x" 10] "0xa" ∧
    (fetchTransactions
        (fun k => if k < 2 then FetchOutcome.err else FetchOutcome.ok (some [mkTx "x" 10]))
        "0xa").2 = 3000 := by
  have h2 := (fetchTransactions_retry_policy
    (fun k => if k < 2 then FetchOutcome.err else FetchOutcome.ok (some [mkTx "x" 10]))
    "0xa" [mkTx "x" 10]).2 rfl rfl rfl
  refine ⟨?_, ?_, ?_⟩
  · have h := (fetchTransactions_retry_policy (fun _ => FetchOutcome.err) "0xa" []).1
      (fun _ => rfl)
    rw [h]
    decide
  · rw [h2]
  · rw [h2]
    decide

/-- C8: when every attempt of `getCurrentBlockNumber` fails, the call
still returns a value: the maximum positive `lastTxBlock` across the known
wallet states when one exists, and the hard-coded floor `24000000`
otherwise. -/
theorem getCurrentBlockNumber_fallback (upstream : Nat → Option Int) (states : List WalletState)
    (hfail : ∀ k, upstream k = none) :
    (getCurrentBlockNumber upstream states).1 =
      match ((states.map fun s => s.lastTxBlock).filter fun b => 0 < b).max? with
      | some m => m
      | none => 24000000 := by
  have hstep : (getCurrentBlockNumber upstream states).1 = fallbackBlockNumber states := by
    simp [getCurrentBlockNumber, getCurrentBlockNumberGo, hfail, API_SETTINGS_MAX_RETRIES]
  rw [hstep]
  unfold fallbackBlockNumber
  dsimp only
  cases hmax : ((states.map fun s => s.lastTxBlock).filter fun b => 0 < b).max? with
  | none => rfl
  | some m =>
    have hmem : m ∈ (states.map fun s => s.lastTxBlock).filter fun b => 0 < b :=
      List.max?_mem (fun _ _ => max_choice _ _) hmax
    have hpos : (0 : Int) < m := by
      have := (List.mem_filter.mp hmem).2
      exact of_decide_eq_true this
    simp [hpos]

/-- Witness for C8: with every attempt failing, a state collection whose
positive `lastTxBlock` values are 30 and 20 yields 30, and an empty state
collection yields the floor 24000000. -/
theorem getCurrentBlockNumber_fallback_witness :
    (getCurrentBlockNumber (fun _ => none)
        [initialWalletState,
         { isSpamming := false, lastTxBlock := 30, lastNotifiedTxHash := "", lastStateChangeTime := 0 },
         { isSpamming := true, lastTxBlock := 20, lastNotifiedTxHash := "", lastStateChangeTime := 0 }]).1 =
      30 ∧
    (getCurrentBlockNumber (fun _ => none) ([] : List WalletState)).1 = 24000000 := by
  constructor
  · have h := getCurrentBlockNumber_fallback (fun _ => none)
      [initialWalletState,
       { isSpamming := false, lastTxBlock := 30, lastNotifiedTxHash := "", lastStateChangeTime := 0 },
       { isSpamming := true, lastTxBlock := 20, lastNotifiedTxHash := "", lastStateChangeTime := 0 }]
      (fun _ => rfl)
    rw [h]
    decide
  · have h := getCurrentBlockNumber_fallback (fun _ => none) ([] : List WalletState)
      (fun _ => rfl)
    rw [h]
    decide

/-- C9: one acquisition (`rateLimitedDelay` followed by `getNextApiKey`)
returns the credential at the rotation cursor, advances the cursor by one
modulo the pool size (strict round-robin), stamps that credential with a
time at least `RATE_LIMIT_DELAY` after its previous recorded use, and
leaves every other credential's stamp and the pool itself untouched.
Totality of the embedding reflects that acquisition never errors — it only
delays. -/
theorem getD_set_self (l : List Int) (i : Nat) (x d : Int) (h : i < l.length) :
    (l.set i x).getD i d = x := by
  rw [List.getD_eq_getElem?_getD, List.getElem?_set_self (by simpa using h)]
  rfl

theorem getD_set_ne (l : List Int) (i j : Nat) (x d : Int) (h : j ≠ i) :
    (l.set i x).getD j d = l.getD j d := by
  rw [List.getD_eq_getElem?_getD, List.getElem?_set_ne (by omega),
    ← List.getD_eq_getElem?_getD]

theorem acquire_round_robin (s : RateLimiterState) (elapsed : Nat)
    (hidx : s.currentApiKeyIndex < s.apiKeys.length)
    (hlen : s.lastApiCalls.length = s.apiKeys.length) :
    (acquire elapsed s).1 = s.apiKeys.getD s.currentApiKeyIndex "" ∧
    (acquire elapsed s).2.currentApiKeyIndex = (s.currentApiKeyIndex + 1) % s.apiKeys.length ∧
    s.lastApiCalls.getD s.currentApiKeyIndex 0 + RATE_LIMIT_DELAY ≤
      (acquire elapsed s).2.lastApiCalls.getD s.currentApiKeyIndex 0 ∧
    (∀ j, j ≠ s.currentApiKeyIndex →
      (acquire elapsed s).2.lastApiCalls.getD j 0 = s.lastApiCalls.getD j 0) ∧
    (acquire elapsed s).2.apiKeys = s.apiKeys := by
  have hlt : s.currentApiKeyIndex < s.lastApiCalls.length := by omega
  refine ⟨rfl, rfl, ?_, ?_, rfl⟩
  · unfold acquire getNextApiKey rateLimitedDelay
    dsimp only
    rw [getD_set_self _ _ _ _ hlt]
    split <;> omega
  · intro j hj
    unfold acquire getNextApiKey rateLimitedDelay
    dsimp only
    rw [getD_set_ne _ _ _ _ _ hj]

/-- Witness for C9: a three-credential pool with cursor 1, last stamps
`[0, 10, 20]` and clock 30, after 5 ms of elapsed time, hands out key
`"k1"`, advances the cursor to 2, and stamps credential 1 at time 60 — at
least 50 ms after its previous use at 10. -/
theorem acquire_round_robin_witness :
    (acquire 5
      ({ apiKeys := ["k0", "k1", "k2"], currentApiKeyIndex := 1,
         lastApiCalls := [0, 10, 20], now := 30 } : RateLimiterState)).1 = "k1" ∧
    (acquire 5
      ({ apiKeys := ["k0", "k1", "k2"], currentApiKeyIndex := 1,
         lastApiCalls := [0, 10, 20], now := 30 } : RateLimiterState)).2.currentApiKeyIndex = 2 ∧
    (10 : Int) + RATE_LIMIT_DELAY ≤
      (acquire 5
        ({ apiKeys := ["k0", "k1", "k2"], currentApiKeyIndex := 1,
           lastApiCalls := [0, 10, 20], now := 30 } : RateLimiterState)).2.lastApiCalls.getD 1 0 ∧
    (acquire 5
      ({ apiKeys := ["k0", "k1", "k2"], currentApiKeyIndex := 1,
         lastApiCalls := [0, 10, 20], now := 30 } : RateLimiterState)).2.lastApiCalls.getD 0 0 = 0 := by
  have h := acquire_round_robin
    ({ apiKeys := ["k0", "k1", "k2"], currentApiKeyIndex := 1,
       lastApiCalls := [0, 10, 20], now := 30 } : RateLimiterState) 5 (by decide) (by decide)
  exact ⟨h.1, h.2.1, h.2.2.1, h.2.2.2.1 0 (by decide)⟩

example :
    (isSpamActivity [mkTx "a" 102, mkTx "b" 101, mkTx "c" 100]
      initialWalletState 1000 103).1 =
      { shouldNotify := true, type := some TransitionType.start } := by decide

example :
    (isSpamActivity [mkTx "a" 102, mkTx "b" 101, mkTx "c" 100]
      initialWalletState 10 103).1 = noChange := by decide

end WalletTracker
